import Mathlib

/-!
# Verification of the espresso-macros transformers

A shallow embedding of the two attribute-driven transformers of the
espresso-macros crate (`src/generic_tests.rs` and `src/ser_test.rs`),
together with theorems settling the specification claims about them.

The embedding models the syntax-tree fragments the transformers inspect
(attributes, function items, modules, nested attribute arguments) and
translates each Rust function into a Lean function of the same name.
Rust panics are modelled as `Except.error`; `proc_macro` token streams
are modelled by structured values recording exactly the information the
transformers put into them.
-/

namespace EspressoMacros

/-! ## Data model for `generic_tests.rs` -/

/-- A `syn::Attribute`, reduced to the part the transformer inspects:
its path segments.  `syn` guarantees the path of an attribute is
non-empty; the transformer calls `.last().unwrap()` on it. -/
structure Attr where
  segments : List String
  deriving DecidableEq, Repr

/-- The part of a `syn::Signature` that `generic_tests` reads and
rewrites: the function name, the generic parameter list (modelled as an
opaque list of parameter tokens; `Default::default()` is `[]`), and
whether the function is `async`. -/
structure FnSig where
  ident : String
  generics : List String
  asyncness : Bool
  deriving DecidableEq, Repr

/-- A `syn::ItemFn`: its attributes, signature fields, and an opaque
body. -/
structure ItemFn where
  attrs : List Attr
  sig : FnSig
  body : String
  deriving DecidableEq, Repr

/-- The call `#name::#test_name::<$($t),*>()` emitted into a macro arm,
optionally wrapped in `.await`.  The `::<$($t),*>` turbofish taking the
macro's captured type list is fixed syntax present in every emitted
call and is therefore not a field. -/
structure TestCall where
  modName : String
  fnName : String
  awaited : Bool
  deriving DecidableEq, Repr

/-- One re-declaration appended to `macro_body` for a test-marked
function: the replicated test attributes, the cloned signature with
generics cleared, and the qualified call that forms its body. -/
structure MacroArm where
  attrs : List Attr
  sig : FnSig
  call : TestCall
  deriving DecidableEq, Repr

/-- A module item as the transformer distinguishes them: a function, the
synthesized `macro_rules!` declaration (with its `#[macro_export]`
flag, name, and the arms of its single rule's expansion), or any other
item, opaque. -/
inductive Item where
  | fn (f : ItemFn)
  | macroDecl (exported : Bool) (name : String) (arms : List MacroArm)
  | other (tokens : String)
  deriving DecidableEq, Repr

/-- A `syn::ItemMod`: name and optional braced content. -/
structure ItemMod where
  ident : String
  content : Option (List Item)
  deriving DecidableEq, Repr

/-- The transformer's output token stream `#[macro_use] #test_mod`:
the rewritten module, preceded by the fixed `#[macro_use]` attribute. -/
structure GenericTestsOutput where
  macroUseAttr : Bool
  itemMod : ItemMod
  deriving DecidableEq, Repr

/-! ## `generic_tests.rs` translated -/

/-- `is_test_attr`: the attribute's last path segment is one of the
recognized test markers.  (`syn` guarantees a non-empty path; on the
impossible empty path the Rust code would panic, modelled here as
`false`.) -/
def is_test_attr (attr : Attr) : Bool :=
  match attr.segments.getLast? with
  | some s => s = "test" || s = "ignore" || s = "bench" || s = "should_panic"
  | none => false

/-- `take_test_attrs`: partition the function's attributes into test
markers and the rest (each keeping relative order, as Rust's
`partition` does), leave the rest on the function, return the
markers. -/
def take_test_attrs (f : ItemFn) : List Attr × ItemFn :=
  let test_attrs := f.attrs.filter is_test_attr
  let other_attrs := f.attrs.filter (fun a => !is_test_attr a)
  (test_attrs, { f with attrs := other_attrs })

/-- The per-item step of the `items.into_iter().map(...)` loop in
`generic_tests`: returns the (possibly stripped) item together with the
macro arms this item contributes to `macro_body` (one arm when the item
is a function with at least one test marker, none otherwise). -/
def transformItem (name : String) (item : Item) : Item × List MacroArm :=
  match item with
  | Item.fn f =>
    let (test_attrs, f') := take_test_attrs f
    if test_attrs.isEmpty then
      (Item.fn f', [])
    else
      let test_sig : FnSig := { f'.sig with generics := [] }
      let call : TestCall :=
        { modName := name, fnName := test_sig.ident, awaited := test_sig.asyncness }
      (Item.fn f', [{ attrs := test_attrs, sig := test_sig, call := call }])
  | _ => (item, [])

/-- `generic_tests`: rewrite the module's content (when it has one) by
stripping test markers from every function, accumulating one macro arm
per test-marked function in declaration order, and appending the
`#[macro_export] macro_rules! instantiate_<name>` declaration; the
whole module is emitted behind `#[macro_use]`. -/
def generic_tests (test_mod : ItemMod) : GenericTestsOutput :=
  let name := test_mod.ident
  let content := test_mod.content.map (fun items =>
    let macroName := "instantiate_" ++ name
    let steps := items.map (transformItem name)
    let items' := steps.map Prod.fst
    let macroBody := (steps.map Prod.snd).flatten
    items' ++ [Item.macroDecl true macroName macroBody])
  { macroUseAttr := true, itemMod := { ident := name, content := content } }

/-! ## Data model for `ser_test.rs` -/

/-- A `syn::Lit`, reduced to the variants the transformer
distinguishes: string, boolean, and (representing every other literal
kind) integer literals. -/
inductive SLit where
  | str (s : String)
  | bool (b : Bool)
  | int (n : Int)
  deriving DecidableEq, Repr

/-- `syn::Path::get_ident`: a path is a plain identifier exactly when
it has a single segment (and no path arguments, which the model's
segments never carry). -/
def pathGetIdent (segments : List String) : Option String :=
  match segments with
  | [s] => some s
  | _ => none

/-- A `syn::NestedMeta` attribute argument, with the enclosed `Meta`
variants flattened into it: `NestedMeta::Meta(Meta::Path p)` is
`metaPath`, `NestedMeta::Meta(Meta::List {path, nested})` is
`metaList`, `NestedMeta::Meta(Meta::NameValue ..)` is `metaNameValue`,
and `NestedMeta::Lit l` is `lit`. -/
inductive NestedMeta where
  | metaPath (path : List String)
  | metaList (path : List String) (nested : List NestedMeta)
  | metaNameValue (path : List String) (l : SLit)
  | lit (l : SLit)

/-- A type expression produced by `parse_type`: either parsed from a
quoted string via `syn::parse_str`, or a bare path reparsed as a type.
The transformer never inspects the parsed type, so it is kept as the
datum it came from. -/
inductive Ty where
  | fromStr (s : String)
  | fromPath (p : List String)
  deriving DecidableEq, Repr

/-- One instantiation token stream pushed onto `types`: either
`<#name<#(#params),*>>` from a `types(...)` argument (`params := some ..`,
possibly the empty list), or the bare default `<#name>` pushed when no
`types(...)` argument was given (`params := none`). -/
structure TyInst where
  base : String
  params : Option (List Ty)
  deriving DecidableEq, Repr

/-- The `Constr` enum of `ser_test.rs`: the configured construction
strategy. -/
inductive Constr where
  | default
  | random (f : String)
  | arbitrary
  | method (f : String)
  deriving DecidableEq, Repr

/-- The configuration accumulated by the argument loop of `ser_test`:
the four mutable locals `constr`, `test_ark`, `test_serde`, `types`. -/
structure SerTestConfig where
  constr : Constr
  test_ark : Bool
  test_serde : Bool
  types : List TyInst
  deriving DecidableEq, Repr

/-- The initial values of the four locals before the argument loop. -/
def initialSerTestConfig : SerTestConfig :=
  { constr := Constr.default, test_ark := true, test_serde := true, types := [] }

/-! ## `ser_test.rs` translated -/

/-- `parse_type`: a quoted string is parsed as a type, a bare path is
reused as a type, anything else panics with "expected type".  (The
`unwrap` on `syn::parse_str` failing for a malformed string is external
parsing behaviour, not modelled.) -/
def parse_type (m : NestedMeta) : Except String Ty :=
  match m with
  | NestedMeta.lit (SLit.str s) => Except.ok (Ty.fromStr s)
  | NestedMeta.metaPath p => Except.ok (Ty.fromPath p)
  | _ => Except.error "expected type"

/-- One iteration of the `for arg in args` loop of `ser_test`: the
match on the argument's shape, with every `panic!` modelled as
`Except.error` carrying the panic message. -/
def processArg (name : String) (st : SerTestConfig) (arg : NestedMeta) :
    Except String SerTestConfig :=
  match arg with
  | NestedMeta.metaPath path =>
    match pathGetIdent path with
    | some id =>
      if id = "random" then
        Except.ok { st with constr := Constr.random id }
      else if id = "arbitrary" then
        Except.ok { st with constr := Constr.arbitrary }
      else Except.error "invalid argument"
    | none => Except.error "invalid argument"
  | NestedMeta.metaList path nested =>
    match pathGetIdent path with
    | some id =>
      if id = "random" then
        match nested with
        | [NestedMeta.metaPath p] =>
          match pathGetIdent p with
          | some f => Except.ok { st with constr := Constr.random f }
          | none => Except.error "random argument must be an identifier"
        | [_] => Except.error "random argument must be an identifier"
        | _ => Except.error "random attribute takes 1 argument"
      else if id = "constr" then
        match nested with
        | [NestedMeta.metaPath p] =>
          match pathGetIdent p with
          | some f => Except.ok { st with constr := Constr.method f }
          | none => Except.error "constr argument must be an identifier"
        | [_] => Except.error "constr argument must be an identifier"
        | _ => Except.error "constr attribute takes 1 argument"
      else if id = "ark" then
        match nested with
        | [NestedMeta.lit (SLit.bool b)] => Except.ok { st with test_ark := b }
        | [_] => Except.error "ark argument must be a boolean"
        | _ => Except.error "ark attribute takes 1 argument"
      else if id = "serde" then
        match nested with
        | [NestedMeta.lit (SLit.bool b)] => Except.ok { st with test_serde := b }
        | [_] => Except.error "serde argument must be a boolean"
        | _ => Except.error "serde attribute takes 1 argument"
      else if id = "types" then
        match nested.mapM parse_type with
        | Except.ok params =>
          Except.ok { st with types := st.types ++ [{ base := name, params := some params }] }
        | Except.error e => Except.error e
      else Except.error "invalid attribute"
    | none => Except.error "invalid attribute"
  | _ => Except.error "invalid argument"

/-- The `for arg in args` loop itself: process the arguments left to
right, aborting on the first panic. -/
def parseArgsLoop (name : String) (st : SerTestConfig) :
    List NestedMeta → Except String SerTestConfig
  | [] => Except.ok st
  | arg :: rest =>
    match processArg name st arg with
    | Except.ok st' => parseArgsLoop name st' rest
    | Except.error e => Except.error e

/-- Argument parsing of `ser_test` from the initial configuration. -/
def parseSerTestArgs (name : String) (args : List NestedMeta) :
    Except String SerTestConfig :=
  parseArgsLoop name initialSerTestConfig args

/-- Which of the two serialization formats a synthesized test
exercises. -/
inductive SerFormat where
  | serde
  | ark
  deriving DecidableEq, Repr

/-- The construction expression `#constr` emitted into a test body, one
variant per `Constr` arm of the match in the generation loop.
`arbitraryOf` records the seed bytes of `ChaChaRng::from_seed([42u8; 32])`,
the number of bytes drawn by `rng.fill_bytes` into `vec![0u8; 2048]`,
and whether the `arbitrary` result is `.unwrap()`ped; `randomOf`
records the same seed and the invoked associated function. -/
inductive ConstrExpr where
  | defaultOf (ty : TyInst)
  | arbitraryOf (ty : TyInst) (seed : List Nat) (drawBytes : Nat) (unwrapped : Bool)
  | randomOf (ty : TyInst) (seed : List Nat) (f : String)
  | methodOf (ty : TyInst) (f : String)
  deriving DecidableEq, Repr

/-- The `let constr = match &constr { .. }` step of the generation
loop, at one instantiation `ty`. -/
def constrExprFor (c : Constr) (ty : TyInst) : ConstrExpr :=
  match c with
  | Constr.default => ConstrExpr.defaultOf ty
  | Constr.arbitrary => ConstrExpr.arbitraryOf ty (List.replicate 32 42) 2048 true
  | Constr.random f => ConstrExpr.randomOf ty (List.replicate 32 42) f
  | Constr.method f => ConstrExpr.methodOf ty f

/-- The name of the serde round-trip test for instantiation index `i`:
`format!("ser_test_serde_round_trip_{}_{}", name, i)`. -/
def serdeTestName (name : String) (i : Nat) : String :=
  "ser_test_serde_round_trip_" ++ name ++ ("_" ++ toString i)

/-- The name of the ark round-trip test for instantiation index `i`:
`format!("ser_test_ark_serialize_round_trip_{}_{}", name, i)`. -/
def arkTestName (name : String) (i : Nat) : String :=
  "ser_test_ark_serialize_round_trip_" ++ name ++ ("_" ++ toString i)

/-- One synthesized `#[cfg(test)] #[test]` function: its name, its
format, and the construction expression its body begins with.  The
rest of the body (serialize, deserialize, compare, all unwrapped) is
fixed per format. -/
structure TestFn where
  name : String
  format : SerFormat
  constr : ConstrExpr
  deriving DecidableEq, Repr

/-- The `if types.is_empty() { types.push(quote!(<#name>)); }` step:
the instantiation lists actually iterated over by the generation
loop. -/
def effectiveTypes (name : String) (cfg : SerTestConfig) : List TyInst :=
  if cfg.types.isEmpty then [{ base := name, params := none }] else cfg.types

/-- The `for (i, ty) in types.into_iter().enumerate()` generation loop:
at each instantiation, append the serde test (if enabled) and then the
ark test (if enabled), in that order, with the running index `i`. -/
def genLoop (name : String) (cfg : SerTestConfig) : Nat → List TyInst → List TestFn
  | _, [] => []
  | i, ty :: rest =>
    let constr := constrExprFor cfg.constr ty
    (if cfg.test_serde then
        [{ name := serdeTestName name i, format := SerFormat.serde, constr := constr }]
      else []) ++
    (if cfg.test_ark then
        [{ name := arkTestName name i, format := SerFormat.ark, constr := constr }]
      else []) ++
    genLoop name cfg (i + 1) rest

/-- All tests synthesized for a parsed configuration. -/
def testsFor (name : String) (cfg : SerTestConfig) : List TestFn :=
  genLoop name cfg 0 (effectiveTypes name cfg)

/-- The item `ser_test` is applied to: a struct, an enum, or anything
else (which panics with "expected struct or enum"). -/
inductive SItem where
  | structItem (ident : String)
  | enumItem (ident : String)
  | otherItem (tokens : String)
  deriving DecidableEq, Repr

/-- The output token stream of `ser_test`: the unchanged input item
followed by the synthesized tests. -/
structure SerTestOutput where
  original : SItem
  tests : List TestFn
  deriving DecidableEq, Repr

/-- `ser_test`: reject anything that is neither struct nor enum, parse
the arguments, and emit the original item followed by one test per
(instantiation, enabled format) pair. -/
def ser_test (args : List NestedMeta) (input : SItem) : Except String SerTestOutput :=
  match input with
  | SItem.structItem name | SItem.enumItem name =>
    match parseSerTestArgs name args with
    | Except.ok cfg => Except.ok { original := input, tests := testsFor name cfg }
    | Except.error e => Except.error e
  | SItem.otherItem _ => Except.error "expected struct or enum"

/-! ## Characterizations of the `generic_tests` rewrite

Spec-side descriptions of what happens to a single item, used to state
the claims: `stripItem` removes exactly the test markers from a
function item, `armOf` yields the single macro arm a test-marked
function contributes (and `none` for everything else). -/

/-- A function with exactly its test-marker attributes removed. -/
def strippedFn (f : ItemFn) : ItemFn :=
  { f with attrs := f.attrs.filter (fun a => !is_test_attr a) }

/-- The in-module replacement of an item: functions lose their test
markers, every other item is untouched. -/
def stripItem : Item → Item
  | Item.fn f => Item.fn (strippedFn f)
  | it => it

/-- The macro arm an item contributes: a test-marked function yields
exactly one arm carrying exactly its removed markers, the cleared
generics, and the qualified call awaited iff the function is async;
unmarked functions and non-function items yield none. -/
def armOf (modName : String) : Item → Option MacroArm
  | Item.fn f =>
    let markers := f.attrs.filter is_test_attr
    if markers.isEmpty then none
    else
      some { attrs := markers,
             sig := { f.sig with generics := [] },
             call := { modName := modName, fnName := f.sig.ident,
                       awaited := f.sig.asyncness } }
  | _ => none

theorem transformItem_eq (name : String) (it : Item) :
    transformItem name it = (stripItem it, (armOf name it).toList) := by
  cases it with
  | fn f =>
    simp only [transformItem, take_test_attrs, stripItem, strippedFn, armOf]
    by_cases h : (f.attrs.filter is_test_attr).isEmpty <;> simp [h]
  | macroDecl e n a => rfl
  | other t => rfl

theorem flatten_toList_eq_filterMap {α β : Type} (f : α → Option β) (l : List α) :
    (l.map (fun a => (f a).toList)).flatten = l.filterMap f := by
  induction l with
  | nil => rfl
  | cons a rest ih =>
    cases h : f a <;> simp [List.filterMap_cons, h, ih]

/-- The central description of `generic_tests` on a module with inline
content: every item is stripped of its markers in place, and the
exported `instantiate_<name>` macro is appended, its body holding one
arm per test-marked function in declaration order. -/
theorem generic_tests_content (m : ItemMod) (items : List Item)
    (h : m.content = some items) :
    (generic_tests m).itemMod.content =
      some ((items.map stripItem) ++
        [Item.macroDecl true ("instantiate_" ++ m.ident)
          (items.filterMap (armOf m.ident))]) := by
  have h1 : (items.map (transformItem m.ident)).map Prod.fst = items.map stripItem := by
    simp [List.map_map, transformItem_eq, Function.comp]
  have h2 : ((items.map (transformItem m.ident)).map Prod.snd).flatten =
      items.filterMap (armOf m.ident) := by
    rw [← flatten_toList_eq_filterMap]
    simp [List.map_map, transformItem_eq, Function.comp_def]
  simp only [generic_tests, h, Option.map_some', h1, h2]

/-! ## Claims about `generic_tests` -/

/-- C1: for every module given to the test-module transformer, every
top-level function carrying at least one test marker (attribute whose
terminal path segment is test/ignore/bench/should_panic) has exactly
those markers removed in its in-module declaration and gains exactly
one non-generic re-declaration in the generated macro body carrying
exactly the removed markers, re-declarations appearing in original
declaration order; zero-marker functions and non-function items are
unchanged and produce no macro arm. -/
theorem claim_C1_marker_transfer (m : ItemMod) (items : List Item)
    (h : m.content = some items) :
    (generic_tests m).itemMod.content =
      some ((items.map stripItem) ++
        [Item.macroDecl true ("instantiate_" ++ m.ident)
          (items.filterMap (armOf m.ident))]) ∧
    (∀ f : ItemFn,
        stripItem (Item.fn f) =
          Item.fn { f with attrs := f.attrs.filter (fun a => !is_test_attr a) } ∧
        armOf m.ident (Item.fn f) =
          (if f.attrs.filter is_test_attr = [] then none
           else some { attrs := f.attrs.filter is_test_attr,
                       sig := { f.sig with generics := [] },
                       call := { modName := m.ident, fnName := f.sig.ident,
                                 awaited := f.sig.asyncness } })) ∧
    (∀ f : ItemFn, f.attrs.filter is_test_attr = [] →
        stripItem (Item.fn f) = Item.fn f) ∧
    (∀ it : Item, (∀ f : ItemFn, it ≠ Item.fn f) →
        stripItem it = it ∧ armOf m.ident it = none) := by
  refine ⟨generic_tests_content m items h, ?_, ?_, ?_⟩
  · intro f
    refine ⟨rfl, ?_⟩
    cases hfa : f.attrs.filter is_test_attr with
    | nil => simp [armOf, hfa]
    | cons a as => simp [armOf, hfa]
  · intro f hf
    have hall : ∀ a ∈ f.attrs, ¬ is_test_attr a := List.filter_eq_nil_iff.mp hf
    simp only [stripItem, strippedFn]
    congr 1
    have : f.attrs.filter (fun a => !is_test_attr a) = f.attrs :=
      List.filter_eq_self.mpr (fun a ha => by simpa using hall a ha)
    cases f
    simp_all
  · intro it hit
    cases it with
    | fn f => exact absurd rfl (hit f)
    | macroDecl e n a => exact ⟨rfl, rfl⟩
    | other t => exact ⟨rfl, rfl⟩

/-- Witness for C1 at a concrete module: an async generic function with
two markers and one other attribute, an unmarked function, and a
non-function item. -/
theorem claim_C1_marker_transfer_witness :
    (generic_tests
        { ident := "tests",
          content := some [
            Item.fn { attrs := [{ segments := ["async_std", "test"] },
                                { segments := ["ignore"] },
                                { segments := ["allow"] }],
                      sig := { ident := "t1", generics := ["T"], asyncness := true },
                      body := "b1" },
            Item.fn { attrs := [{ segments := ["derive"] }],
                      sig := { ident := "helper", generics := [], asyncness := false },
                      body := "b2" },
            Item.other "use x" ] }).itemMod.content =
      some [
        Item.fn { attrs := [{ segments := ["allow"] }],
                  sig := { ident := "t1", generics := ["T"], asyncness := true },
                  body := "b1" },
        Item.fn { attrs := [{ segments := ["derive"] }],
                  sig := { ident := "helper", generics := [], asyncness := false },
                  body := "b2" },
        Item.other "use x",
        Item.macroDecl true "instantiate_tests"
          [{ attrs := [{ segments := ["async_std", "test"] },
                       { segments := ["ignore"] }],
             sig := { ident := "t1", generics := [], asyncness := true },
             call := { modName := "tests", fnName := "t1", awaited := true } }]] :=
  (claim_C1_marker_transfer
    { ident := "tests",
      content := some [
        Item.fn { attrs := [{ segments := ["async_std", "test"] },
                            { segments := ["ignore"] },
                            { segments := ["allow"] }],
                  sig := { ident := "t1", generics := ["T"], asyncness := true },
                  body := "b1" },
        Item.fn { attrs := [{ segments := ["derive"] }],
                  sig := { ident := "helper", generics := [], asyncness := false },
                  body := "b2" },
        Item.other "use x" ] }
    [ Item.fn { attrs := [{ segments := ["async_std", "test"] },
                          { segments := ["ignore"] },
                          { segments := ["allow"] }],
                sig := { ident := "t1", generics := ["T"], asyncness := true },
                body := "b1" },
      Item.fn { attrs := [{ segments := ["derive"] }],
                sig := { ident := "helper", generics := [], asyncness := false },
                body := "b2" },
      Item.other "use x" ]
    rfl).1

/-- C7: for every module with an inline body, an exported declarative
macro named by prefixing the module name with `instantiate_` is
appended to the module's item list, even when the module has zero
test-marked functions, in which case its expansion body is empty. -/
theorem claim_C7_macro_appended (m : ItemMod) (items : List Item)
    (h : m.content = some items) :
    ∃ newItems,
      (generic_tests m).itemMod.content =
        some (newItems ++
          [Item.macroDecl true ("instantiate_" ++ m.ident)
            (items.filterMap (armOf m.ident))]) ∧
      ((∀ f : ItemFn, Item.fn f ∈ items → f.attrs.filter is_test_attr = []) →
        items.filterMap (armOf m.ident) = []) := by
  refine ⟨items.map stripItem, generic_tests_content m items h, ?_⟩
  intro hall
  rw [List.filterMap_eq_nil_iff]
  intro it hit
  cases it with
  | fn f =>
    have := hall f hit
    simp [armOf, this]
  | macroDecl e n a => rfl
  | other t => rfl

/-- Witness for C7 at a module with zero test-marked functions: the
empty-bodied exported macro is still appended. -/
theorem claim_C7_macro_appended_witness :
    ∃ newItems,
      (generic_tests
          { ident := "m",
            content := some [Item.other "struct X;"] }).itemMod.content =
        some (newItems ++
          [Item.macroDecl true ("instantiate_" ++ "m")
            (List.filterMap (armOf "m") [Item.other "struct X;"])]) ∧
      ((∀ f : ItemFn, Item.fn f ∈ [Item.other "struct X;"] →
          f.attrs.filter is_test_attr = []) →
        List.filterMap (armOf "m") [Item.other "struct X;"] = []) :=
  claim_C7_macro_appended
    { ident := "m", content := some [Item.other "struct X;"] }
    [Item.other "struct X;"] rfl

/-- C9: for every test-marked function of the module, the generated
macro body contains its re-declaration whose body is the
module-qualified call with the macro's type list, awaited exactly when
the original function is asynchronous. -/
theorem claim_C9_async_await (m : ItemMod) (items : List Item) (f : ItemFn)
    (h : m.content = some items) (hf : Item.fn f ∈ items)
    (hm : f.attrs.filter is_test_attr ≠ []) :
    ∃ pre arms,
      (generic_tests m).itemMod.content =
        some (pre ++ [Item.macroDecl true ("instantiate_" ++ m.ident) arms]) ∧
      ({ attrs := f.attrs.filter is_test_attr,
         sig := { f.sig with generics := [] },
         call := { modName := m.ident, fnName := f.sig.ident,
                   awaited := f.sig.asyncness } } : MacroArm) ∈ arms := by
  refine ⟨items.map stripItem, items.filterMap (armOf m.ident),
    generic_tests_content m items h, ?_⟩
  refine List.mem_filterMap.mpr ⟨Item.fn f, hf, ?_⟩
  cases hfa : f.attrs.filter is_test_attr with
  | nil => exact absurd hfa hm
  | cons a as => simp [armOf, hfa]

/-- Witness for C9 at a module with one async test-marked function:
its macro arm's call is awaited. -/
theorem claim_C9_async_await_witness :
    ∃ pre arms,
      (generic_tests
          { ident := "tests",
            content := some [
              Item.fn { attrs := [{ segments := ["test"] }],
                        sig := { ident := "t", generics := ["T"], asyncness := true },
                        body := "" }] }).itemMod.content =
        some (pre ++ [Item.macroDecl true ("instantiate_" ++ "tests") arms]) ∧
      ({ attrs := [{ segments := ["test"] }],
         sig := { ident := "t", generics := [], asyncness := true },
         call := { modName := "tests", fnName := "t", awaited := true } } :
          MacroArm) ∈ arms :=
  claim_C9_async_await
    { ident := "tests",
      content := some [
        Item.fn { attrs := [{ segments := ["test"] }],
                  sig := { ident := "t", generics := ["T"], asyncness := true },
                  body := "" }] }
    [Item.fn { attrs := [{ segments := ["test"] }],
               sig := { ident := "t", generics := ["T"], asyncness := true },
               body := "" }]
    { attrs := [{ segments := ["test"] }],
      sig := { ident := "t", generics := ["T"], asyncness := true },
      body := "" }
    rfl (List.mem_singleton.mpr rfl) (by decide)

/-- C10: a module declaration without an inline body is passed through
untouched — no macro synthesized, no failure — apart from the fixed
`#[macro_use]` wrapper attribute prepended to the module. -/
theorem claim_C10_shell_module (m : ItemMod) (h : m.content = none) :
    generic_tests m = { macroUseAttr := true, itemMod := m } := by
  cases m with
  | mk ident content =>
    have hc : content = none := h
    subst hc
    rfl

/-- Witness for C10 at a concrete shell module. -/
theorem claim_C10_shell_module_witness :
    generic_tests { ident := "m", content := none } =
      { macroUseAttr := true, itemMod := { ident := "m", content := none } } :=
  claim_C10_shell_module { ident := "m", content := none } rfl

/-! ## Lemmas about the generation loop of `ser_test` -/

theorem genLoop_no_ark_format (name : String) (cfg : SerTestConfig)
    (ha : cfg.test_ark = false) :
    ∀ (tys : List TyInst) (i : Nat) (t : TestFn),
      t ∈ genLoop name cfg i tys → t.format = SerFormat.serde := by
  intro tys
  induction tys with
  | nil => intro i t ht; simp [genLoop] at ht
  | cons ty rest ih =>
    intro i t ht
    simp only [genLoop, ha] at ht
    cases hs : cfg.test_serde <;> rw [hs] at ht <;> simp at ht
    · exact ih (i + 1) t ht
    · rcases ht with rfl | ht
      · rfl
      · exact ih (i + 1) t ht

theorem genLoop_serde_only (name : String) (cfg : SerTestConfig)
    (ha : cfg.test_ark = false) (hs : cfg.test_serde = true) :
    ∀ (tys : List TyInst) (i : Nat),
      genLoop name cfg i tys =
        (tys.enumFrom i).map (fun p =>
          { name := serdeTestName name p.1, format := SerFormat.serde,
            constr := constrExprFor cfg.constr p.2 }) := by
  intro tys
  induction tys with
  | nil => intro i; rfl
  | cons ty rest ih =>
    intro i
    simp [genLoop, ha, hs, List.enumFrom, ih (i + 1)]

theorem genLoop_constr_shape (name : String) (cfg : SerTestConfig) :
    ∀ (tys : List TyInst) (i : Nat) (t : TestFn),
      t ∈ genLoop name cfg i tys →
      ∃ ty, t.constr = constrExprFor cfg.constr ty := by
  intro tys
  induction tys with
  | nil => intro i t ht; simp [genLoop] at ht
  | cons ty rest ih =>
    intro i t ht
    simp only [genLoop] at ht
    rcases List.mem_append.mp ht with h12 | h3
    · rcases List.mem_append.mp h12 with h1 | h2
      · split at h1
        · rcases List.mem_singleton.mp h1 with rfl
          exact ⟨ty, rfl⟩
        · simp at h1
      · split at h2
        · rcases List.mem_singleton.mp h2 with rfl
          exact ⟨ty, rfl⟩
        · simp at h2
    · exact ih (i + 1) t h3

/-! ## Claims about `ser_test` generation -/

/-- C4: with an empty argument list, exactly one instantiation (the
bare type name, no type parameters) is assumed and exactly two tests
are synthesized, named `ser_test_serde_round_trip_<name>_0` and
`ser_test_ark_serialize_round_trip_<name>_0`, each constructing via the
type's zero-argument default constructor. -/
theorem claim_C4_no_args (name : String) (input : SItem)
    (h : input = SItem.structItem name ∨ input = SItem.enumItem name) :
    ser_test [] input =
      Except.ok
        { original := input,
          tests := [
            { name := serdeTestName name 0, format := SerFormat.serde,
              constr := ConstrExpr.defaultOf { base := name, params := none } },
            { name := arkTestName name 0, format := SerFormat.ark,
              constr := ConstrExpr.defaultOf { base := name, params := none } }] } ∧
    serdeTestName name 0 = "ser_test_serde_round_trip_" ++ name ++ "_0" ∧
    arkTestName name 0 = "ser_test_ark_serialize_round_trip_" ++ name ++ "_0" := by
  refine ⟨?_, ?_, ?_⟩
  · rcases h with rfl | rfl <;> rfl
  · unfold serdeTestName
    rw [show ("_" ++ toString (0 : Nat)) = "_0" from rfl]
  · unfold arkTestName
    rw [show ("_" ++ toString (0 : Nat)) = "_0" from rfl]

/-- Witness for C4 on `struct S1;`. -/
theorem claim_C4_no_args_witness :
    ser_test [] (SItem.structItem "S1") =
      Except.ok
        { original := SItem.structItem "S1",
          tests := [
            { name := "ser_test_serde_round_trip_S1_0", format := SerFormat.serde,
              constr := ConstrExpr.defaultOf { base := "S1", params := none } },
            { name := "ser_test_ark_serialize_round_trip_S1_0", format := SerFormat.ark,
              constr := ConstrExpr.defaultOf { base := "S1", params := none } }] } :=
  (claim_C4_no_args "S1" (SItem.structItem "S1") (Or.inl rfl)).1

/-- C5: with `ark(false)` in force, zero ark tests are synthesized
regardless of the number of instantiations, while serde tests, if serde
is enabled, are still synthesized one per instantiation (in order). -/
theorem claim_C5_ark_false (name : String) (cfg : SerTestConfig)
    (ha : cfg.test_ark = false) :
    (testsFor name cfg).filter (fun t => t.format == SerFormat.ark) = [] ∧
    (cfg.test_serde = true →
      testsFor name cfg =
        ((effectiveTypes name cfg).enumFrom 0).map (fun p =>
          { name := serdeTestName name p.1, format := SerFormat.serde,
            constr := constrExprFor cfg.constr p.2 })) := by
  constructor
  · rw [List.filter_eq_nil_iff]
    intro t ht
    have hf := genLoop_no_ark_format name cfg ha _ 0 t ht
    simp [hf]
  · intro hs
    exact genLoop_serde_only name cfg ha hs _ 0

/-- Witness for C5 at a configuration with two instantiations, ark
disabled, serde enabled. -/
theorem claim_C5_ark_false_witness :
    ((testsFor "G"
        { constr := Constr.default, test_ark := false, test_serde := true,
          types := [{ base := "G", params := some [Ty.fromPath ["u64"]] },
                    { base := "G", params := some [Ty.fromPath ["u32"]] }] }).filter
        (fun t => t.format == SerFormat.ark) = []) ∧
    ((true : Bool) = true →
      testsFor "G"
        { constr := Constr.default, test_ark := false, test_serde := true,
          types := [{ base := "G", params := some [Ty.fromPath ["u64"]] },
                    { base := "G", params := some [Ty.fromPath ["u32"]] }] } =
        ((effectiveTypes "G"
            { constr := Constr.default, test_ark := false, test_serde := true,
              types := [{ base := "G", params := some [Ty.fromPath ["u64"]] },
                        { base := "G", params := some [Ty.fromPath ["u32"]] }] }).enumFrom
            0).map (fun p =>
          { name := serdeTestName "G" p.1, format := SerFormat.serde,
            constr := constrExprFor Constr.default p.2 })) :=
  claim_C5_ark_false "G"
    { constr := Constr.default, test_ark := false, test_serde := true,
      types := [{ base := "G", params := some [Ty.fromPath ["u64"]] },
                { base := "G", params := some [Ty.fromPath ["u32"]] }] } rfl

/-- C8: with the arbitrary construction strategy, every synthesized
test body constructs its instance from a generator seeded with the
fixed 32-byte all-42 seed, draws exactly 2048 pseudo-random bytes as
unstructured input to the arbitrary-value generator, and unwraps the
result (so construction failure is a test-time failure, not a
transformation-time error). -/
theorem claim_C8_arbitrary_seed (name : String) (cfg : SerTestConfig)
    (hc : cfg.constr = Constr.arbitrary) :
    ∀ t ∈ testsFor name cfg, ∃ ty,
      t.constr = ConstrExpr.arbitraryOf ty (List.replicate 32 42) 2048 true ∧
      (List.replicate 32 (42 : Nat)).length = 32 ∧
      ∀ b ∈ List.replicate 32 (42 : Nat), b = 42 := by
  intro t ht
  obtain ⟨ty, hty⟩ := genLoop_constr_shape name cfg _ 0 t ht
  refine ⟨ty, ?_, by simp, fun b hb => List.eq_of_mem_replicate hb⟩
  rw [hty, hc]
  rfl

/-- Witness for C8: the serde test synthesized for an
arbitrary-strategy configuration carries the all-42 seed, the 2048-byte
draw, and the unwrap. -/
theorem claim_C8_arbitrary_seed_witness :
    ∃ ty,
      ({ name := serdeTestName "S" 0, format := SerFormat.serde,
         constr := ConstrExpr.arbitraryOf { base := "S", params := none }
             (List.replicate 32 42) 2048 true } : TestFn).constr =
        ConstrExpr.arbitraryOf ty (List.replicate 32 42) 2048 true ∧
      (List.replicate 32 (42 : Nat)).length = 32 ∧
      ∀ b ∈ List.replicate 32 (42 : Nat), b = 42 :=
  claim_C8_arbitrary_seed "S"
    { constr := Constr.arbitrary, test_ark := true, test_serde := true, types := [] }
    rfl
    { name := serdeTestName "S" 0, format := SerFormat.serde,
      constr := ConstrExpr.arbitraryOf { base := "S", params := none }
          (List.replicate 32 42) 2048 true }
    (List.mem_cons_self _ _)

/-! ## Lemmas about the argument loop of `ser_test` -/

/-- A `types(...)` list argument — the only argument kind that appends
an instantiation list. -/
def isTypesArg : NestedMeta → Bool
  | NestedMeta.metaList path _ =>
    if pathGetIdent path = some "types" then true else false
  | _ => false

theorem processArg_types_length (name : String) (st : SerTestConfig)
    (a : NestedMeta) (st' : SerTestConfig)
    (h : processArg name st a = Except.ok st') :
    st'.types.length = st.types.length + (if isTypesArg a then 1 else 0) := by
  unfold processArg at h
  repeat' split at h
  all_goals cases h
  all_goals simp_all [isTypesArg]

theorem parseArgsLoop_types_length (name : String) :
    ∀ (args : List NestedMeta) (st cfg : SerTestConfig),
      parseArgsLoop name st args = Except.ok cfg →
      cfg.types.length = st.types.length + args.countP isTypesArg := by
  intro args
  induction args with
  | nil =>
    intro st cfg h
    cases h
    simp
  | cons a rest ih =>
    intro st cfg h
    simp only [parseArgsLoop] at h
    cases hp : processArg name st a with
    | error e => rw [hp] at h; cases h
    | ok st1 =>
      rw [hp] at h
      have h1 := processArg_types_length name st a st1 hp
      have h2 := ih st1 cfg h
      rw [h2, h1, List.countP_cons]
      omega

theorem genLoop_both (name : String) (cfg : SerTestConfig)
    (hs : cfg.test_serde = true) (ha : cfg.test_ark = true) :
    ∀ (tys : List TyInst) (i : Nat),
      genLoop name cfg i tys =
        ((tys.enumFrom i).map (fun p =>
          [{ name := serdeTestName name p.1, format := SerFormat.serde,
             constr := constrExprFor cfg.constr p.2 },
           { name := arkTestName name p.1, format := SerFormat.ark,
             constr := constrExprFor cfg.constr p.2 }])).flatten := by
  intro tys
  induction tys with
  | nil => intro i; rfl
  | cons ty rest ih =>
    intro i
    simp [genLoop, hs, ha, List.enumFrom, ih (i + 1)]

theorem genLoop_length_both (name : String) (cfg : SerTestConfig)
    (hs : cfg.test_serde = true) (ha : cfg.test_ark = true) :
    ∀ (tys : List TyInst) (i : Nat),
      (genLoop name cfg i tys).length = 2 * tys.length := by
  intro tys
  induction tys with
  | nil => intro i; rfl
  | cons ty rest ih =>
    intro i
    simp [genLoop, hs, ha, ih (i + 1)]
    omega

/-- C2: with N instantiation lists accumulated across repeated
`types(...)` arguments and both formats enabled, exactly 2N tests are
synthesized — per instantiation one serde then one ark test — and the
index embedded in each test name equals the position of that
instantiation in left-to-right declaration order (`enumFrom 0`). -/
theorem claim_C2_two_n_tests (name : String) (args : List NestedMeta)
    (cfg : SerTestConfig) (N : Nat)
    (hok : parseSerTestArgs name args = Except.ok cfg)
    (hN : args.countP isTypesArg = N) (hpos : 0 < N)
    (hs : cfg.test_serde = true) (ha : cfg.test_ark = true) :
    cfg.types.length = N ∧
    testsFor name cfg =
      ((cfg.types.enumFrom 0).map (fun p =>
        [{ name := serdeTestName name p.1, format := SerFormat.serde,
           constr := constrExprFor cfg.constr p.2 },
         { name := arkTestName name p.1, format := SerFormat.ark,
           constr := constrExprFor cfg.constr p.2 }])).flatten ∧
    (testsFor name cfg).length = 2 * N := by
  have hlen : cfg.types.length = N := by
    have := parseArgsLoop_types_length name args initialSerTestConfig cfg hok
    simpa [initialSerTestConfig, hN] using this
  have hne : cfg.types.isEmpty = false := by
    cases htys : cfg.types with
    | nil => rw [htys] at hlen; simp at hlen; omega
    | cons x xs => rfl
  have heff : effectiveTypes name cfg = cfg.types := by
    simp [effectiveTypes, hne]
  refine ⟨hlen, ?_, ?_⟩
  · unfold testsFor
    rw [heff]
    exact genLoop_both name cfg hs ha cfg.types 0
  · unfold testsFor
    rw [heff, genLoop_length_both name cfg hs ha cfg.types 0, hlen]

/-- Witness for C2: `types(u64, "Vec<u64>")` and `types(u32, bool)`
give N = 2 instantiations and four tests with indices 0 and 1. -/
theorem claim_C2_two_n_tests_witness :
    ({ constr := Constr.default, test_ark := true, test_serde := true,
       types := [{ base := "G", params := some [Ty.fromPath ["u64"], Ty.fromStr "Vec<u64>"] },
                 { base := "G", params := some [Ty.fromPath ["u32"], Ty.fromPath ["bool"]] }]
       } : SerTestConfig).types.length = 2 ∧
    testsFor "G"
      { constr := Constr.default, test_ark := true, test_serde := true,
        types := [{ base := "G", params := some [Ty.fromPath ["u64"], Ty.fromStr "Vec<u64>"] },
                  { base := "G", params := some [Ty.fromPath ["u32"], Ty.fromPath ["bool"]] }] } =
      [{ name := "ser_test_serde_round_trip_G_0", format := SerFormat.serde,
         constr := ConstrExpr.defaultOf
           { base := "G", params := some [Ty.fromPath ["u64"], Ty.fromStr "Vec<u64>"] } },
       { name := "ser_test_ark_serialize_round_trip_G_0", format := SerFormat.ark,
         constr := ConstrExpr.defaultOf
           { base := "G", params := some [Ty.fromPath ["u64"], Ty.fromStr "Vec<u64>"] } },
       { name := "ser_test_serde_round_trip_G_1", format := SerFormat.serde,
         constr := ConstrExpr.defaultOf
           { base := "G", params := some [Ty.fromPath ["u32"], Ty.fromPath ["bool"]] } },
       { name := "ser_test_ark_serialize_round_trip_G_1", format := SerFormat.ark,
         constr := ConstrExpr.defaultOf
           { base := "G", params := some [Ty.fromPath ["u32"], Ty.fromPath ["bool"]] } }] ∧
    (testsFor "G"
      { constr := Constr.default, test_ark := true, test_serde := true,
        types := [{ base := "G", params := some [Ty.fromPath ["u64"], Ty.fromStr "Vec<u64>"] },
                  { base := "G", params := some [Ty.fromPath ["u32"], Ty.fromPath ["bool"]] }]
        }).length = 2 * 2 :=
  claim_C2_two_n_tests "G"
    [NestedMeta.metaList ["types"]
       [NestedMeta.metaPath ["u64"], NestedMeta.lit (SLit.str "Vec<u64>")],
     NestedMeta.metaList ["types"]
       [NestedMeta.metaPath ["u32"], NestedMeta.metaPath ["bool"]]]
    { constr := Constr.default, test_ark := true, test_serde := true,
      types := [{ base := "G", params := some [Ty.fromPath ["u64"], Ty.fromStr "Vec<u64>"] },
                { base := "G", params := some [Ty.fromPath ["u32"], Ty.fromPath ["bool"]] }] }
    2 rfl rfl (by decide) rfl rfl

/-! ## Invalid-argument shapes (C3) -/

/-- The unrecognized argument shapes enumerated by the spec: a bare
path not in {random, arbitrary}; a list argument whose head is not in
{random, constr, ark, serde, types}; a literal argument (and likewise a
name-value argument, which is also not a recognized form); a
random/constr list whose sub-argument count differs from 1 or whose
sub-argument is not a bare identifier; an ark/serde list whose
sub-argument count differs from 1 or whose sub-argument is not a
boolean literal. -/
def badArg : NestedMeta → Bool
  | NestedMeta.metaPath p =>
    if pathGetIdent p = some "random" ∨ pathGetIdent p = some "arbitrary" then
      false
    else true
  | NestedMeta.metaList p nested =>
    match pathGetIdent p with
    | some id =>
      if id = "random" ∨ id = "constr" then
        !(match nested with
          | [NestedMeta.metaPath q] => (pathGetIdent q).isSome
          | _ => false)
      else if id = "ark" ∨ id = "serde" then
        !(match nested with
          | [NestedMeta.lit (SLit.bool _)] => true
          | _ => false)
      else if id = "types" then false
      else true
    | none => true
  | NestedMeta.metaNameValue _ _ => true
  | NestedMeta.lit _ => true

theorem processArg_bad_error (name : String) (st : SerTestConfig) (a : NestedMeta)
    (h : badArg a = true) : ∃ msg, processArg name st a = Except.error msg := by
  cases a with
  | metaPath p =>
    cases hp : pathGetIdent p with
    | none => exact ⟨_, by simp only [processArg, hp]; rfl⟩
    | some id =>
      simp only [badArg, hp] at h
      split_ifs at h with hc
      have h1 : ¬ id = "random" := fun e => hc (Or.inl (by rw [e]))
      have h2 : ¬ id = "arbitrary" := fun e => hc (Or.inr (by rw [e]))
      exact ⟨_, by simp only [processArg, hp]; rw [if_neg h1, if_neg h2]⟩
  | metaList p nested =>
    cases hp : pathGetIdent p with
    | none => exact ⟨_, by simp only [processArg, hp]; rfl⟩
    | some id =>
      simp only [badArg, hp] at h
      by_cases h1 : id = "random" ∨ id = "constr"
      · rw [if_pos h1] at h
        rcases nested with _ | ⟨n1, _ | ⟨n2, ns⟩⟩
        · rcases h1 with rfl | rfl <;> exact ⟨_, by simp only [processArg, hp]; rfl⟩
        · cases n1 with
          | metaPath q =>
            have h' : (pathGetIdent q).isSome = false := by simpa using h
            have hq : pathGetIdent q = none := by
              cases hqq : pathGetIdent q with
              | none => rfl
              | some f => rw [hqq] at h'; simp at h'
            rcases h1 with rfl | rfl <;>
              exact ⟨_, by simp only [processArg, hp, hq]; rfl⟩
          | metaList q ns' =>
            rcases h1 with rfl | rfl <;> exact ⟨_, by simp only [processArg, hp]; rfl⟩
          | metaNameValue q l =>
            rcases h1 with rfl | rfl <;> exact ⟨_, by simp only [processArg, hp]; rfl⟩
          | lit l =>
            rcases h1 with rfl | rfl <;> exact ⟨_, by simp only [processArg, hp]; rfl⟩
        · rcases h1 with rfl | rfl <;> exact ⟨_, by simp only [processArg, hp]; rfl⟩
      · rw [if_neg h1] at h
        have hr : ¬ id = "random" := fun e => h1 (Or.inl e)
        have hco : ¬ id = "constr" := fun e => h1 (Or.inr e)
        by_cases h2 : id = "ark" ∨ id = "serde"
        · rw [if_pos h2] at h
          rcases nested with _ | ⟨n1, _ | ⟨n2, ns⟩⟩
          · rcases h2 with rfl | rfl <;> exact ⟨_, by simp only [processArg, hp]; rfl⟩
          · cases n1 with
            | lit l =>
              cases l with
              | bool b => simp at h
              | str s =>
                rcases h2 with rfl | rfl <;>
                  exact ⟨_, by simp only [processArg, hp]; rfl⟩
              | int n =>
                rcases h2 with rfl | rfl <;>
                  exact ⟨_, by simp only [processArg, hp]; rfl⟩
            | metaPath q =>
              rcases h2 with rfl | rfl <;> exact ⟨_, by simp only [processArg, hp]; rfl⟩
            | metaList q ns' =>
              rcases h2 with rfl | rfl <;> exact ⟨_, by simp only [processArg, hp]; rfl⟩
            | metaNameValue q l =>
              rcases h2 with rfl | rfl <;> exact ⟨_, by simp only [processArg, hp]; rfl⟩
          · rcases h2 with rfl | rfl <;> exact ⟨_, by simp only [processArg, hp]; rfl⟩
        · rw [if_neg h2] at h
          have ha2 : ¬ id = "ark" := fun e => h2 (Or.inl e)
          have hs2 : ¬ id = "serde" := fun e => h2 (Or.inr e)
          by_cases h3 : id = "types"
          · rw [if_pos h3] at h; simp at h
          · exact ⟨_, by
              simp only [processArg, hp]
              rw [if_neg hr, if_neg hco, if_neg ha2, if_neg hs2, if_neg h3]⟩
  | metaNameValue p l => exact ⟨_, rfl⟩
  | lit l => exact ⟨_, rfl⟩

theorem parseArgsLoop_bad_error (name : String) :
    ∀ (args : List NestedMeta) (st : SerTestConfig),
      (∃ a ∈ args, badArg a = true) →
      ∃ msg, parseArgsLoop name st args = Except.error msg := by
  intro args
  induction args with
  | nil =>
    intro st h
    rcases h with ⟨a, ha, _⟩
    cases ha
  | cons b rest ih =>
    intro st h
    rcases h with ⟨a, ha, hbad⟩
    rcases List.mem_cons.mp ha with rfl | ha'
    · obtain ⟨msg, hm⟩ := processArg_bad_error name st a hbad
      exact ⟨msg, by simp [parseArgsLoop, hm]⟩
    · cases hp : processArg name st b with
      | error e => exact ⟨e, by simp [parseArgsLoop, hp]⟩
      | ok st1 =>
        obtain ⟨msg, hm⟩ := ih st1 ⟨a, ha', hbad⟩
        exact ⟨msg, by simp [parseArgsLoop, hp, hm]⟩

/-- C3: any argument of an unrecognized shape anywhere in the argument
list makes argument parsing fail hard with a diagnostic — the parse
aborts and no configuration (not even a partial one) is produced. -/
theorem claim_C3_invalid_arg_aborts (name : String) (args : List NestedMeta)
    (h : ∃ a ∈ args, badArg a = true) :
    ∃ msg, parseSerTestArgs name args = Except.error msg ∧
      ∀ cfg, parseSerTestArgs name args ≠ Except.ok cfg := by
  obtain ⟨msg, hm⟩ := parseArgsLoop_bad_error name args initialSerTestConfig h
  have hm' : parseSerTestArgs name args = Except.error msg := hm
  exact ⟨msg, hm', fun cfg hc => by rw [hm'] at hc; cases hc⟩

/-- Witness for C3 at a literal argument. -/
theorem claim_C3_invalid_arg_aborts_witness :
    ∃ msg,
      parseSerTestArgs "S" [NestedMeta.lit (SLit.int 5)] = Except.error msg ∧
      ∀ cfg, parseSerTestArgs "S" [NestedMeta.lit (SLit.int 5)] ≠ Except.ok cfg :=
  claim_C3_invalid_arg_aborts "S" [NestedMeta.lit (SLit.int 5)]
    ⟨NestedMeta.lit (SLit.int 5), by simp, rfl⟩

/-! ## Left-to-right processing and overwrite semantics (C6) -/

theorem parseArgsLoop_append (name : String) :
    ∀ (args1 args2 : List NestedMeta) (st : SerTestConfig),
      parseArgsLoop name st (args1 ++ args2) =
        match parseArgsLoop name st args1 with
        | Except.ok st' => parseArgsLoop name st' args2
        | Except.error e => Except.error e := by
  intro args1
  induction args1 with
  | nil => intro args2 st; rfl
  | cons a rest ih =>
    intro args2 st
    simp only [List.cons_append, parseArgsLoop]
    cases processArg name st a with
    | ok st1 => exact ih args2 st1
    | error e => rfl

/-- An `ark(b)` argument. -/
def arkArg (b : Bool) : NestedMeta :=
  NestedMeta.metaList ["ark"] [NestedMeta.lit (SLit.bool b)]

/-- A `serde(b)` argument. -/
def serdeArg (b : Bool) : NestedMeta :=
  NestedMeta.metaList ["serde"] [NestedMeta.lit (SLit.bool b)]

/-- A `random(f)` argument. -/
def randomArg (f : String) : NestedMeta :=
  NestedMeta.metaList ["random"] [NestedMeta.metaPath [f]]

/-- A `constr(f)` argument. -/
def constrArg (f : String) : NestedMeta :=
  NestedMeta.metaList ["constr"] [NestedMeta.metaPath [f]]

/-- A `types(p1, ..., pk)` argument whose entries are bare paths. -/
def typesPathsArg (ps : List (List String)) : NestedMeta :=
  NestedMeta.metaList ["types"] (ps.map NestedMeta.metaPath)

theorem mapM_parse_type_paths :
    ∀ ps : List (List String),
      (ps.map NestedMeta.metaPath).mapM parse_type =
        Except.ok (ps.map Ty.fromPath) := by
  intro ps
  induction ps with
  | nil => rfl
  | cons p rest ih =>
    simp only [List.map_cons, List.mapM_cons, ih, parse_type]
    rfl

/-- C6: arguments are processed left to right; after any successfully
parsed prefix, a further `ark`/`serde`/`random`/`constr` argument
overwrites the corresponding scalar of the accumulated configuration
(last occurrence wins, without error even when the prefix already set
it), while a further `types(...)` argument appends one more
instantiation list. -/
theorem claim_C6_left_to_right_overwrite (name : String) (args : List NestedMeta)
    (cfg : SerTestConfig)
    (hok : parseSerTestArgs name args = Except.ok cfg) :
    (∀ b, parseSerTestArgs name (args ++ [arkArg b]) =
        Except.ok { cfg with test_ark := b }) ∧
    (∀ b, parseSerTestArgs name (args ++ [serdeArg b]) =
        Except.ok { cfg with test_serde := b }) ∧
    (∀ f, parseSerTestArgs name (args ++ [randomArg f]) =
        Except.ok { cfg with constr := Constr.random f }) ∧
    (∀ f, parseSerTestArgs name (args ++ [constrArg f]) =
        Except.ok { cfg with constr := Constr.method f }) ∧
    (∀ ps, parseSerTestArgs name (args ++ [typesPathsArg ps]) =
        Except.ok { cfg with types := cfg.types ++
          [{ base := name, params := some (ps.map Ty.fromPath) }] }) := by
  have happ : ∀ a : NestedMeta,
      parseSerTestArgs name (args ++ [a]) = processArg name cfg a := by
    intro a
    unfold parseSerTestArgs at hok ⊢
    rw [parseArgsLoop_append name args [a] initialSerTestConfig, hok]
    simp only [parseArgsLoop]
    cases processArg name cfg a <;> rfl
  refine ⟨?_, ?_, ?_, ?_, ?_⟩
  · intro b; rw [happ]; rfl
  · intro b; rw [happ]; rfl
  · intro f; rw [happ]; rfl
  · intro f; rw [happ]; rfl
  · intro ps
    rw [happ]
    simp only [typesPathsArg, processArg, pathGetIdent, mapM_parse_type_paths]
    rfl

/-- Witness for C6: a second `ark` argument overwrites the first with
no error. -/
theorem claim_C6_left_to_right_overwrite_witness :
    parseSerTestArgs "T" ([arkArg false] ++ [arkArg true]) =
      Except.ok { constr := Constr.default, test_ark := true,
                  test_serde := true, types := [] } :=
  (claim_C6_left_to_right_overwrite "T" [arkArg false]
    { constr := Constr.default, test_ark := false,
      test_serde := true, types := [] } rfl).1 true

end EspressoMacros
